import Mathlib

/-
Shallow embedding of src/server/utils/jwt.py (the "nebula" JWT token
subsystem): claims mappings, token encode/decode/verify, the access and
refresh token handlers, and refresh-to-access exchange.

Modelling conventions:
- A Python claims dict is an insertion-ordered association list
  (List (String × Value)); dict.get is first-occurrence lookup, dict.update
  replaces values in place and appends new keys, matching CPython semantics.
- A JWT string is modelled by the inductive TokenStr: either a well-formed
  signed token carrying its payload, signing secret and algorithm, or a
  malformed string.  jwt.encode/jwt.decode of the PyJWT library are modelled
  by jwtLibEncode/jwtLibDecode: decoding succeeds exactly when the token is
  well formed, secret and algorithm match, and the exp claim (when present,
  as an integer) is still in the future.
- Wall-clock time is an explicit integer parameter `now` (seconds); Python
  timedelta values become their total seconds.  Python truthiness of
  timedelta / dict / str values is modelled explicitly (timedeltaTruthy,
  claimsTruthy, valueTruthy) because the source branches on it.
- Raising jwt.InvalidTokenError is modelled by Except.error; the handler
  methods that catch it pattern-match on the Except value, so totality of
  the Lean functions mirrors "no exception escapes".
-/

namespace Nebula

/-- JSON-style claim values occurring in this subsystem: strings and
integers (subjects, token-type tags, expiry timestamps). -/
inductive Value where
  | str (s : String)
  | int (n : Int)
deriving DecidableEq

/-- A claims mapping: an insertion-ordered association list, as a CPython
dict. -/
abbrev Claims := List (String × Value)

/-- Python `d.get(k)`: value at the first occurrence of key `k`, else
absent. -/
def dictGet : Claims → String → Option Value
  | [], _ => none
  | (k', v) :: d, k => if k' = k then some v else dictGet d k

/-- Python `k in d`. -/
def containsKey (d : Claims) (k : String) : Bool :=
  d.any (fun p => p.1 == k)

/-- Python `d[k] = v`: replace the value at the first occurrence of `k` in
place, or append `(k, v)` when the key is absent. -/
def dictInsert : Claims → String → Value → Claims
  | [], k, v => [(k, v)]
  | (k', v') :: d, k, v =>
    if k' = k then (k, v) :: d else (k', v') :: dictInsert d k v

/-- Python `d.update(e)`: assign every pair of `e` into `d`, left to
right. -/
def dictUpdate (d : Claims) (e : Claims) : Claims :=
  e.foldl (fun acc kv => dictInsert acc kv.1 kv.2) d

/-- Python truthiness of an Optional[timedelta] (seconds): None and the
zero duration are falsy. -/
def timedeltaTruthy : Option Int → Bool
  | none => false
  | some d => d != 0

/-- Python truthiness of an Optional[dict]: None and the empty dict are
falsy. -/
def claimsTruthy : Option Claims → Bool
  | none => false
  | some d => d != []

/-- Python truthiness of an optional claim value: None, the empty string
and the integer 0 are falsy. -/
def valueTruthy : Option Value → Bool
  | none => false
  | some (Value.str s) => s != ""
  | some (Value.int n) => n != 0

/-- The `TokenType` enum of the source. -/
inductive TokenType where
  | ACCESS
  | REFRESH
deriving DecidableEq

/-- The `.value` attribute of the enum members. -/
def TokenType.value : TokenType → String
  | .ACCESS => "access"
  | .REFRESH => "refresh"

/-- A JWT string: a well-formed signed token (payload, signing secret,
algorithm recorded in the header) or a malformed string. -/
inductive TokenStr where
  | signed (payload : Claims) (secret_key : String) (algorithm : String)
  | malformed (s : String)
deriving DecidableEq

/-- Configuration held by the abstract JWT base class: secret key and
algorithm, fixed at construction. -/
structure JWTConfig where
  secret_key : String
  algorithm : String
deriving DecidableEq

/-- PyJWT `jwt.encode(payload, key, algorithm)`: produces the signed
token. -/
def jwtLibEncode (payload : Claims) (secret_key algorithm : String) : TokenStr :=
  TokenStr.signed payload secret_key algorithm

/-- PyJWT `jwt.decode(token, key, algorithms=[alg])` at wall-clock `now`:
fails on malformed input, algorithm mismatch, signature (secret) mismatch,
or an integer `exp` claim not in the future; otherwise returns the
payload. -/
def jwtLibDecode (secret_key algorithm : String) (now : Int) :
    TokenStr → Except String Claims
  | TokenStr.malformed _ => Except.error "DecodeError"
  | TokenStr.signed p s a =>
    if a ≠ algorithm then Except.error "InvalidAlgorithmError"
    else if s ≠ secret_key then Except.error "InvalidSignatureError"
    else
      match dictGet p "exp" with
      | some (Value.int e) =>
        if e ≤ now then Except.error "ExpiredSignatureError" else Except.ok p
      | some (Value.str _) => Except.error "DecodeError"
      | none => Except.ok p

/-- The expiry instant computed by `JWT.encode_token`: `now + expires_delta`
when `expires_delta` is truthy (not None and nonzero), else the 24-hour
default.  Note the source tests `if expires_delta:`, so a zero timedelta
falls into the default branch. -/
def encodeExpire (now : Int) (expires_delta : Option Int) : Int :=
  if timedeltaTruthy expires_delta then now + expires_delta.getD 0
  else now + 86400

/-- `JWT.encode_token`: copy the payload, add/overwrite the `exp` claim with
the computed expiry, and sign. -/
def encode_token (cfg : JWTConfig) (now : Int) (payload : Claims)
    (expires_delta : Option Int) : TokenStr :=
  let to_encode := payload
  let expire := encodeExpire now expires_delta
  let to_encode := dictUpdate to_encode [("exp", Value.int expire)]
  jwtLibEncode to_encode cfg.secret_key cfg.algorithm

/-- `JWT.encode_token` with the caller's dict made observable: the second
component is the caller's `payload` after the call (the function mutates
only the local copy `to_encode`, never the argument). -/
def encode_token_eff (cfg : JWTConfig) (now : Int) (payload : Claims)
    (expires_delta : Option Int) : TokenStr × Claims :=
  let to_encode := payload
  let expire := encodeExpire now expires_delta
  let to_encode := dictUpdate to_encode [("exp", Value.int expire)]
  (jwtLibEncode to_encode cfg.secret_key cfg.algorithm, payload)

/-- `JWT.decode_token`: delegate to the library, rewrapping any failure as
`Invalid token: ...`. -/
def decode_token (cfg : JWTConfig) (now : Int) (t : TokenStr) :
    Except String Claims :=
  match jwtLibDecode cfg.secret_key cfg.algorithm now t with
  | Except.ok p => Except.ok p
  | Except.error e => Except.error ("Invalid token: " ++ e)

/-- `JWT.verify_token`: whether decoding succeeds, error suppressed. -/
def verify_token (cfg : JWTConfig) (now : Int) (t : TokenStr) : Bool :=
  match decode_token cfg now t with
  | Except.ok _ => true
  | Except.error _ => false

/-- Configuration of the AccessToken handler: the base config plus
`expiration_minutes` (the source defaults it to 30). -/
structure AccessTokenCfg extends JWTConfig where
  expiration_minutes : Int
deriving DecidableEq

/-- Configuration of the RefreshToken handler: the base config plus
`expiration_days` (the source defaults it to 7). -/
structure RefreshTokenCfg extends JWTConfig where
  expiration_days : Int
deriving DecidableEq

/-- `AccessToken.generate_access_token`: payload `{sub, type: "access"}`,
updated with the additional claims when truthy, encoded with
`timedelta(minutes=expiration_minutes)`. -/
def generate_access_token (cfg : AccessTokenCfg) (now : Int) (user_id : Value)
    (additional_claims : Option Claims) : TokenStr :=
  let payload : Claims :=
    [("sub", user_id), ("type", Value.str TokenType.ACCESS.value)]
  let payload :=
    if claimsTruthy additional_claims then
      dictUpdate payload (additional_claims.getD [])
    else payload
  encode_token cfg.toJWTConfig now payload (some (cfg.expiration_minutes * 60))

/-- `AccessToken.verify_access_token`: decodes and checks
`type == "access"`; any decode failure yields false. -/
def verify_access_token (cfg : AccessTokenCfg) (now : Int) (t : TokenStr) :
    Bool :=
  match decode_token cfg.toJWTConfig now t with
  | Except.ok p => dictGet p "type" == some (Value.str TokenType.ACCESS.value)
  | Except.error _ => false

/-- `AccessToken.get_user_id_from_token`: the `sub` claim when the token
decodes and has `type == "access"`, else absent. -/
def AccessToken.get_user_id_from_token (cfg : AccessTokenCfg) (now : Int)
    (t : TokenStr) : Option Value :=
  match decode_token cfg.toJWTConfig now t with
  | Except.ok p =>
    if dictGet p "type" == some (Value.str TokenType.ACCESS.value) then
      dictGet p "sub"
    else none
  | Except.error _ => none

/-- `RefreshToken.generate_refresh_token`: payload `{sub, type: "refresh"}`,
updated with the additional claims when truthy, encoded with
`timedelta(days=expiration_days)`. -/
def generate_refresh_token (cfg : RefreshTokenCfg) (now : Int)
    (user_id : Value) (additional_claims : Option Claims) : TokenStr :=
  let payload : Claims :=
    [("sub", user_id), ("type", Value.str TokenType.REFRESH.value)]
  let payload :=
    if claimsTruthy additional_claims then
      dictUpdate payload (additional_claims.getD [])
    else payload
  encode_token cfg.toJWTConfig now payload (some (cfg.expiration_days * 86400))

/-- `RefreshToken.verify_refresh_token`: decodes and checks
`type == "refresh"`; any decode failure yields false. -/
def verify_refresh_token (cfg : RefreshTokenCfg) (now : Int) (t : TokenStr) :
    Bool :=
  match decode_token cfg.toJWTConfig now t with
  | Except.ok p => dictGet p "type" == some (Value.str TokenType.REFRESH.value)
  | Except.error _ => false

/-- `RefreshToken.get_user_id_from_token`: the `sub` claim when the token
decodes and has `type == "refresh"`, else absent. -/
def RefreshToken.get_user_id_from_token (cfg : RefreshTokenCfg) (now : Int)
    (t : TokenStr) : Option Value :=
  match decode_token cfg.toJWTConfig now t with
  | Except.ok p =>
    if dictGet p "type" == some (Value.str TokenType.REFRESH.value) then
      dictGet p "sub"
    else none
  | Except.error _ => none

/-- `ConcreteRefreshToken.generate_new_access_token`: extract the subject
from the refresh token; when the subject is truthy and the refresh token
verifies, mint a fresh access token for that subject, else absent. -/
def generate_new_access_token (rcfg : RefreshTokenCfg) (now : Int)
    (refresh_token : TokenStr) (access_token_class : AccessTokenCfg) :
    Option TokenStr :=
  let user_id := RefreshToken.get_user_id_from_token rcfg now refresh_token
  if valueTruthy user_id && verify_refresh_token rcfg now refresh_token then
    some (generate_access_token access_token_class now
      (user_id.getD (Value.str "")) none)
  else none

/-- `JWTManager`: holds a ConcreteAccessToken and a ConcreteRefreshToken
built over one secret/algorithm with the default expirations (30 minutes,
7 days). -/
def JWTManager.access (secret_key algorithm : String) : AccessTokenCfg :=
  ⟨⟨secret_key, algorithm⟩, 30⟩

/-- The refresh handler a JWTManager constructs. -/
def JWTManager.refresh (secret_key algorithm : String) : RefreshTokenCfg :=
  ⟨⟨secret_key, algorithm⟩, 7⟩

/-- `JWTManager.generate_token_pair`: one access and one refresh token for
the same subject. -/
def generate_token_pair (secret_key algorithm : String) (now : Int)
    (user_id : Value) : TokenStr × TokenStr :=
  (generate_access_token (JWTManager.access secret_key algorithm) now user_id none,
   generate_refresh_token (JWTManager.refresh secret_key algorithm) now user_id none)

/-- `JWTManager.refresh_access_token`: forwards to the refresh handler's
exchange with the manager's own access handler as target. -/
def refresh_access_token (secret_key algorithm : String) (now : Int)
    (refresh_token_str : TokenStr) : Option TokenStr :=
  generate_new_access_token (JWTManager.refresh secret_key algorithm) now
    refresh_token_str (JWTManager.access secret_key algorithm)

/-- Model-level observation of a token: the claims payload a well-formed
signed token carries (what decoding with the right secret recovers). -/
def tokenPayload : TokenStr → Claims
  | TokenStr.signed p _ _ => p
  | TokenStr.malformed _ => []

/-! Basic lemmas about the dict operations. -/

theorem dictUpdate_nil (d : Claims) : dictUpdate d [] = d := rfl

theorem dictUpdate_cons (d : Claims) (k : String) (v : Value) (e : Claims) :
    dictUpdate d ((k, v) :: e) = dictUpdate (dictInsert d k v) e := rfl

theorem dictGet_dictInsert_self (d : Claims) (k : String) (v : Value) :
    dictGet (dictInsert d k v) k = some v := by
  induction d with
  | nil => simp [dictInsert, dictGet]
  | cons p d ih =>
    obtain ⟨k', v'⟩ := p
    by_cases h : k' = k
    · simp [dictInsert, dictGet, h]
    · simp [dictInsert, dictGet, h, ih]

theorem dictGet_dictInsert_ne (d : Claims) (k k' : String) (v : Value)
    (h : k' ≠ k) : dictGet (dictInsert d k' v) k = dictGet d k := by
  induction d with
  | nil => simp [dictInsert, dictGet, h]
  | cons p d ih =>
    obtain ⟨a, b⟩ := p
    by_cases ha : a = k'
    · simp [dictInsert, dictGet, ha, h, Ne.symm h]
    · by_cases hak : a = k
      · simp [dictInsert, dictGet, ha, hak, Ne.symm h]
      · simp [dictInsert, dictGet, ha, hak, ih]

theorem containsKey_cons (a : String) (b : Value) (d : Claims) (k : String) :
    containsKey ((a, b) :: d) k = ((a == k) || containsKey d k) := by
  simp [containsKey]

theorem dictGet_none_of_not_contains (d : Claims) (k : String)
    (h : containsKey d k = false) : dictGet d k = none := by
  induction d with
  | nil => rfl
  | cons p d ih =>
    obtain ⟨a, b⟩ := p
    rw [containsKey_cons] at h
    simp only [Bool.or_eq_false_iff, beq_eq_false_iff_ne, ne_eq] at h
    simp [dictGet, h.1, ih h.2]

theorem dictInsert_not_contains (d : Claims) (k : String) (v : Value)
    (h : containsKey d k = false) : dictInsert d k v = d ++ [(k, v)] := by
  induction d with
  | nil => rfl
  | cons p d ih =>
    obtain ⟨a, b⟩ := p
    rw [containsKey_cons] at h
    simp only [Bool.or_eq_false_iff, beq_eq_false_iff_ne, ne_eq] at h
    simp [dictInsert, h.1, ih h.2]

theorem dictGet_append (d1 d2 : Claims) (k : String) :
    dictGet (d1 ++ d2) k =
      match dictGet d1 k with
      | some v => some v
      | none => dictGet d2 k := by
  induction d1 with
  | nil => simp [dictGet]
  | cons p d ih =>
    obtain ⟨a, b⟩ := p
    by_cases h : a = k
    · simp [dictGet, h]
    · simp [dictGet, h, ih]

theorem dictGet_dictUpdate_not_contains (e : Claims) (d : Claims) (k : String)
    (h : containsKey e k = false) : dictGet (dictUpdate d e) k = dictGet d k := by
  induction e generalizing d with
  | nil => rfl
  | cons p e ih =>
    obtain ⟨a, b⟩ := p
    rw [containsKey_cons] at h
    simp only [Bool.or_eq_false_iff, beq_eq_false_iff_ne, ne_eq] at h
    rw [dictUpdate_cons, ih _ h.2, dictGet_dictInsert_ne _ _ _ _ h.1]

theorem dictGet_dictUpdate_contains (e : Claims) (d : Claims) (k : String)
    (hnd : (e.map Prod.fst).Nodup) (h : containsKey e k = true) :
    dictGet (dictUpdate d e) k = dictGet e k := by
  induction e generalizing d with
  | nil => simp [containsKey] at h
  | cons p e ih =>
    obtain ⟨a, b⟩ := p
    rw [List.map_cons, List.nodup_cons] at hnd
    by_cases hak : a = k
    · subst hak
      have he : containsKey e a = false := by
        cases hcc : containsKey e a with
        | false => rfl
        | true =>
          exfalso
          simp only [containsKey, List.any_eq_true, beq_iff_eq] at hcc
          obtain ⟨q, hq, hq2⟩ := hcc
          exact hnd.1 (List.mem_map.mpr ⟨q, hq, hq2⟩)
      rw [dictUpdate_cons, dictGet_dictUpdate_not_contains _ _ _ he,
        dictGet_dictInsert_self]
      simp [dictGet]
    · have h' : containsKey e k = true := by
        rw [containsKey_cons] at h
        simpa [beq_iff_eq, hak] using h
      rw [dictUpdate_cons, ih _ hnd.2 h']
      simp [dictGet, hak]

theorem containsKey_of_dictGet (d : Claims) (k : String) (v : Value)
    (h : dictGet d k = some v) : containsKey d k = true := by
  induction d with
  | nil => simp [dictGet] at h
  | cons p d ih =>
    obtain ⟨a, b⟩ := p
    rw [containsKey_cons]
    by_cases hak : a = k
    · simp [hak]
    · rw [dictGet, if_neg hak] at h
      simp [ih h]

/-! Splitting lemmas for dict updates over a distinguished key: used to show
that two base payloads differing only in the value at `"type"` either become
equal after an update (when the update overrides the key) or keep their
distinct values at the first occurrence of the key. -/

theorem dictInsert_split_self (l1 l2 : Claims) (k : String) (X v : Value)
    (h : containsKey l1 k = false) :
    dictInsert (l1 ++ (k, X) :: l2) k v = l1 ++ (k, v) :: l2 := by
  induction l1 with
  | nil => simp [dictInsert]
  | cons p l1 ih =>
    obtain ⟨a, b⟩ := p
    rw [containsKey_cons] at h
    simp only [Bool.or_eq_false_iff, beq_eq_false_iff_ne, ne_eq] at h
    simp [dictInsert, h.1, ih h.2]

theorem dictInsert_split_ne (l1 l2 : Claims) (k ki : String) (X Y v : Value)
    (hk : containsKey l1 k = false) (hne : ki ≠ k) :
    ∃ l1a l2a, containsKey l1a k = false ∧
      dictInsert (l1 ++ (k, X) :: l2) ki v = l1a ++ (k, X) :: l2a ∧
      dictInsert (l1 ++ (k, Y) :: l2) ki v = l1a ++ (k, Y) :: l2a := by
  induction l1 with
  | nil =>
    refine ⟨[], dictInsert l2 ki v, rfl, ?_, ?_⟩ <;>
      simp [dictInsert, Ne.symm hne]
  | cons p l1 ih =>
    obtain ⟨a, b⟩ := p
    rw [containsKey_cons] at hk
    simp only [Bool.or_eq_false_iff, beq_eq_false_iff_ne, ne_eq] at hk
    by_cases ha : a = ki
    · refine ⟨(ki, v) :: l1, l2, ?_, ?_, ?_⟩
      · rw [containsKey_cons]
        simp [hne, hk.2]
      · simp [dictInsert, ha]
      · simp [dictInsert, ha]
    · obtain ⟨l1a, l2a, h0, h1, h2⟩ := ih hk.2
      refine ⟨(a, b) :: l1a, l2a, ?_, ?_, ?_⟩
      · rw [containsKey_cons]
        simp [hk.1, h0]
      · simp [dictInsert, ha, h1]
      · simp [dictInsert, ha, h2]

theorem dictUpdate_split (e : Claims) (k : String) (X Y : Value) :
    ∀ l1 l2 : Claims, containsKey l1 k = false →
    dictUpdate (l1 ++ (k, X) :: l2) e = dictUpdate (l1 ++ (k, Y) :: l2) e ∨
    ∃ l1a l2a, containsKey l1a k = false ∧
      dictUpdate (l1 ++ (k, X) :: l2) e = l1a ++ (k, X) :: l2a ∧
      dictUpdate (l1 ++ (k, Y) :: l2) e = l1a ++ (k, Y) :: l2a := by
  induction e with
  | nil => exact fun l1 l2 h => Or.inr ⟨l1, l2, h, rfl, rfl⟩
  | cons p e ih =>
    intro l1 l2 h
    obtain ⟨ki, v⟩ := p
    rw [dictUpdate_cons, dictUpdate_cons]
    by_cases hki : ki = k
    · subst hki
      rw [dictInsert_split_self _ _ _ X _ h, dictInsert_split_self _ _ _ Y _ h]
      exact Or.inl rfl
    · obtain ⟨l1a, l2a, h0, h1, h2⟩ := dictInsert_split_ne l1 l2 k ki X Y v h hki
      rw [h1, h2]
      exact ih l1a l2a h0

theorem dictGet_split (l1 l2 : Claims) (k : String) (X : Value)
    (h : containsKey l1 k = false) :
    dictGet (l1 ++ (k, X) :: l2) k = some X := by
  induction l1 with
  | nil => simp [dictGet]
  | cons p l1 ih =>
    obtain ⟨a, b⟩ := p
    rw [containsKey_cons] at h
    simp only [Bool.or_eq_false_iff, beq_eq_false_iff_ne, ne_eq] at h
    simp [dictGet, h.1, ih h.2]

/-! Normal forms for encoded and issued tokens. -/

theorem encode_token_eq (cfg : JWTConfig) (now : Int) (p : Claims)
    (d : Option Int) :
    encode_token cfg now p d =
      TokenStr.signed (dictInsert p "exp" (Value.int (encodeExpire now d)))
        cfg.secret_key cfg.algorithm := rfl

theorem tokenPayload_encode (cfg : JWTConfig) (now : Int) (p : Claims)
    (d : Option Int) :
    tokenPayload (encode_token cfg now p d) =
      dictInsert p "exp" (Value.int (encodeExpire now d)) := rfl

theorem encodeExpire_none (now : Int) : encodeExpire now none = now + 86400 := rfl

theorem encodeExpire_some_zero (now : Int) :
    encodeExpire now (some 0) = now + 86400 := rfl

theorem encodeExpire_some_ne (now d : Int) (h : d ≠ 0) :
    encodeExpire now (some d) = now + d := by
  simp [encodeExpire, timedeltaTruthy, h]

theorem encodeExpire_future (now : Int) (d : Option Int)
    (h : 0 ≤ d.getD 0) : now < encodeExpire now d := by
  cases d with
  | none => rw [encodeExpire_none]; omega
  | some x =>
    by_cases hx : x = 0
    · subst hx; rw [encodeExpire_some_zero]; omega
    · rw [encodeExpire_some_ne _ _ hx]
      simp only [Option.getD_some] at h
      omega

theorem decode_token_encode_token (cfg : JWTConfig) (now nowv : Int)
    (p : Claims) (d : Option Int) :
    decode_token cfg nowv (encode_token cfg now p d) =
      if encodeExpire now d ≤ nowv then
        Except.error ("Invalid token: " ++ "ExpiredSignatureError")
      else Except.ok (dictInsert p "exp" (Value.int (encodeExpire now d))) := by
  rw [encode_token_eq]
  by_cases h : encodeExpire now d ≤ nowv <;>
    simp [decode_token, jwtLibDecode, dictGet_dictInsert_self, h]

theorem decode_token_ok_payload (cfg : JWTConfig) (now : Int) (P p : Claims)
    (s a : String) (h : decode_token cfg now (TokenStr.signed P s a) = Except.ok p) :
    p = P := by
  simp only [decode_token, jwtLibDecode] at h
  split at h
  · rename_i q heq
    rw [← Except.ok.inj h]
    split at heq
    · simp at heq
    · split at heq
      · simp at heq
      · split at heq
        · split at heq
          · simp at heq
          · exact (Except.ok.inj heq).symm
        · simp at heq
        · exact (Except.ok.inj heq).symm
  · simp at h

theorem dictInsert_exp_base (uid tv ev : Value) :
    dictInsert [("sub", uid), ("type", tv)] "exp" ev
      = [("sub", uid), ("type", tv), ("exp", ev)] := rfl

theorem dictGet_base3_type (uid tv ev : Value) :
    dictGet [("sub", uid), ("type", tv), ("exp", ev)] "type" = some tv := rfl

theorem dictGet_base3_sub (uid tv ev : Value) :
    dictGet [("sub", uid), ("type", tv), ("exp", ev)] "sub" = some uid := rfl

theorem generate_access_token_update (cfg : AccessTokenCfg) (now : Int)
    (uid : Value) (e : Claims) :
    generate_access_token cfg now uid (some e) =
      encode_token cfg.toJWTConfig now
        (dictUpdate [("sub", uid), ("type", Value.str "access")] e)
        (some (cfg.expiration_minutes * 60)) := by
  by_cases he : e = []
  · subst he; rfl
  · have hct : claimsTruthy (some e) = true := by simp [claimsTruthy, he]
    simp [generate_access_token, hct, TokenType.value]

theorem generate_refresh_token_update (cfg : RefreshTokenCfg) (now : Int)
    (uid : Value) (e : Claims) :
    generate_refresh_token cfg now uid (some e) =
      encode_token cfg.toJWTConfig now
        (dictUpdate [("sub", uid), ("type", Value.str "refresh")] e)
        (some (cfg.expiration_days * 86400)) := by
  by_cases he : e = []
  · subst he; rfl
  · have hct : claimsTruthy (some e) = true := by simp [claimsTruthy, he]
    simp [generate_refresh_token, hct, TokenType.value]

theorem dictUpdate_type_override (uid : Value) (e : Claims) (X Y : Value)
    (hty : dictGet (dictUpdate [("sub", uid), ("type", X)] e) "type" = some Y)
    (hne : X ≠ Y) :
    dictUpdate [("sub", uid), ("type", X)] e
      = dictUpdate [("sub", uid), ("type", Y)] e := by
  have hsplit := dictUpdate_split e "type" X Y [("sub", uid)] [] rfl
  simp only [List.cons_append, List.nil_append] at hsplit
  rcases hsplit with heq | ⟨l1a, l2a, h0, h1, h2⟩
  · exact heq
  · exfalso
    rw [h1, dictGet_split _ _ _ _ h0] at hty
    exact hne (Option.some.inj hty)

/-! Claim theorems. -/

/-- C1 counterexample: an access token issued with ttl = 0 (handler
configured with `expiration_minutes = 0`) is NOT rejected: immediately after
issuance `verify_access_token` returns true and the subject is recovered,
because `encode_token` tests Python truthiness of the zero timedelta and
silently substitutes the 24-hour default expiry.  The claim asserts
validate should return false and subject extraction should be absent. -/
theorem C1_counterexample :
    verify_access_token ⟨⟨"k", "HS256"⟩, 0⟩ 0
      (generate_access_token ⟨⟨"k", "HS256"⟩, 0⟩ 0 (Value.str "alice") none) = true ∧
    AccessToken.get_user_id_from_token ⟨⟨"k", "HS256"⟩, 0⟩ 0
      (generate_access_token ⟨⟨"k", "HS256"⟩, 0⟩ 0 (Value.str "alice") none) =
      some (Value.str "alice") := by
  constructor <;> rfl

/-- C1 (amended): for every user_id, an access token issued with a nonzero
ttl is rejected once its expiry instant `issue_time + ttl` has passed:
validate returns false and subject extraction returns absent.  A token
issued with ttl = 0, however, falls into the 24-hour default branch of
`encode_token` and is accepted (validate true, subject recovered) at any
time before `issue_time + 24h`. -/
theorem C1_amended (s alg U : String) (m nowi nowv : Int) :
    (m ≠ 0 → nowi + m * 60 ≤ nowv →
      verify_access_token ⟨⟨s, alg⟩, m⟩ nowv
        (generate_access_token ⟨⟨s, alg⟩, m⟩ nowi (Value.str U) none) = false ∧
      AccessToken.get_user_id_from_token ⟨⟨s, alg⟩, m⟩ nowv
        (generate_access_token ⟨⟨s, alg⟩, m⟩ nowi (Value.str U) none) = none) ∧
    (m = 0 → nowv < nowi + 86400 →
      verify_access_token ⟨⟨s, alg⟩, m⟩ nowv
        (generate_access_token ⟨⟨s, alg⟩, m⟩ nowi (Value.str U) none) = true ∧
      AccessToken.get_user_id_from_token ⟨⟨s, alg⟩, m⟩ nowv
        (generate_access_token ⟨⟨s, alg⟩, m⟩ nowi (Value.str U) none) =
        some (Value.str U)) := by
  have hga : generate_access_token ⟨⟨s, alg⟩, m⟩ nowi (Value.str U) none
      = encode_token ⟨s, alg⟩ nowi
          [("sub", Value.str U), ("type", Value.str "access")] (some (m * 60)) := rfl
  constructor
  · intro hm hexp
    have he : encodeExpire nowi (some (m * 60)) = nowi + m * 60 :=
      encodeExpire_some_ne _ _ (by omega)
    have hd : decode_token ⟨s, alg⟩ nowv
        (generate_access_token ⟨⟨s, alg⟩, m⟩ nowi (Value.str U) none)
        = Except.error ("Invalid token: " ++ "ExpiredSignatureError") := by
      rw [hga, decode_token_encode_token, he, if_pos hexp]
    constructor
    · simp [verify_access_token, hd]
    · simp [AccessToken.get_user_id_from_token, hd]
  · intro hm hexp
    subst hm
    have h0 : ((0 : Int) * 60) = 0 := by norm_num
    have he : encodeExpire nowi (some ((0 : Int) * 60)) = nowi + 86400 := by
      rw [h0, encodeExpire_some_zero]
    have hd : decode_token ⟨s, alg⟩ nowv
        (generate_access_token ⟨⟨s, alg⟩, 0⟩ nowi (Value.str U) none)
        = Except.ok [("sub", Value.str U), ("type", Value.str "access"),
            ("exp", Value.int (nowi + 86400))] := by
      rw [hga, decode_token_encode_token, he, if_neg (by omega), dictInsert_exp_base]
    constructor
    · simp [verify_access_token, hd, dictGet_base3_type, TokenType.value]
    · simp [AccessToken.get_user_id_from_token, hd, dictGet_base3_type,
        dictGet_base3_sub, TokenType.value]

/-- C1 witness: the amended theorem applied at a concrete expired-ttl
configuration. -/
theorem C1_amended_witness :
    verify_access_token ⟨⟨"k", "HS256"⟩, -1⟩ 0
      (generate_access_token ⟨⟨"k", "HS256"⟩, -1⟩ 0 (Value.str "u") none) = false ∧
    AccessToken.get_user_id_from_token ⟨⟨"k", "HS256"⟩, -1⟩ 0
      (generate_access_token ⟨⟨"k", "HS256"⟩, -1⟩ 0 (Value.str "u") none) = none :=
  (C1_amended "k" "HS256" "u" (-1) 0 0).1 (by decide) (by decide)

/-- C3 counterexample: for the user_id "" (the empty string) the exchange
fails: the freshly issued refresh token is valid, but
`generate_new_access_token` returns absent because the empty-string subject
is falsy in the guard, so the claim's universal quantification over every
user_id is false. -/
theorem C3_counterexample :
    generate_new_access_token ⟨⟨"k", "HS256"⟩, 7⟩ 0
      (generate_refresh_token ⟨⟨"k", "HS256"⟩, 7⟩ 0 (Value.str "") none)
      ⟨⟨"k", "HS256"⟩, 30⟩ = none := by
  rfl

/-- C3 (amended): for every NONEMPTY user_id U (and nonnegative handler
TTL configurations), exchanging a freshly issued refresh token for U via
the refresh handler's exchange with an access handler as target succeeds,
returning exactly a fresh access token for U, and the subject recovered
from that access token equals U. -/
theorem C3_amended (s alg U : String) (days m now : Int)
    (hU : U ≠ "") (hdays : 0 ≤ days) (hm : 0 ≤ m) :
    generate_new_access_token ⟨⟨s, alg⟩, days⟩ now
      (generate_refresh_token ⟨⟨s, alg⟩, days⟩ now (Value.str U) none)
      ⟨⟨s, alg⟩, m⟩ =
      some (generate_access_token ⟨⟨s, alg⟩, m⟩ now (Value.str U) none) ∧
    AccessToken.get_user_id_from_token ⟨⟨s, alg⟩, m⟩ now
      (generate_access_token ⟨⟨s, alg⟩, m⟩ now (Value.str U) none) =
      some (Value.str U) := by
  have hgr : generate_refresh_token ⟨⟨s, alg⟩, days⟩ now (Value.str U) none
      = encode_token ⟨s, alg⟩ now
          [("sub", Value.str U), ("type", Value.str "refresh")]
          (some (days * 86400)) := rfl
  have hga : generate_access_token ⟨⟨s, alg⟩, m⟩ now (Value.str U) none
      = encode_token ⟨s, alg⟩ now
          [("sub", Value.str U), ("type", Value.str "access")] (some (m * 60)) := rfl
  have hfr : ¬ (encodeExpire now (some (days * 86400)) ≤ now) := by
    have := encodeExpire_future now (some (days * 86400)) (by simp; omega)
    omega
  have hfa : ¬ (encodeExpire now (some (m * 60)) ≤ now) := by
    have := encodeExpire_future now (some (m * 60)) (by simp; omega)
    omega
  have hUb : (U != "") = true := bne_iff_ne.mpr hU
  constructor
  · simp only [generate_new_access_token, RefreshToken.get_user_id_from_token,
      verify_refresh_token]
    rw [hgr, decode_token_encode_token, if_neg hfr, dictInsert_exp_base]
    simp [valueTruthy, hUb, dictGet_base3_type, dictGet_base3_sub, TokenType.value]
  · simp only [AccessToken.get_user_id_from_token]
    rw [hga, decode_token_encode_token, if_neg hfa, dictInsert_exp_base]
    simp [dictGet_base3_type, dictGet_base3_sub, TokenType.value]

/-- C3 witness: the amended theorem applied at a concrete nonempty user. -/
theorem C3_amended_witness :
    generate_new_access_token ⟨⟨"k", "HS256"⟩, 7⟩ 0
      (generate_refresh_token ⟨⟨"k", "HS256"⟩, 7⟩ 0 (Value.str "alice") none)
      ⟨⟨"k", "HS256"⟩, 30⟩ =
      some (generate_access_token ⟨⟨"k", "HS256"⟩, 30⟩ 0 (Value.str "alice") none) ∧
    AccessToken.get_user_id_from_token ⟨⟨"k", "HS256"⟩, 30⟩ 0
      (generate_access_token ⟨⟨"k", "HS256"⟩, 30⟩ 0 (Value.str "alice") none) =
      some (Value.str "alice") :=
  C3_amended "k" "HS256" "alice" 7 30 0 (by decide) (by decide) (by decide)

/-- C4: type confusion is rejected: for every subject value, every shared
secret/algorithm, every pair of expiration configurations and every
issuance/validation time, the access-token validator returns false on a
token issued by the refresh handler (either decoding fails, or the payload
carries `type = "refresh"` which is not `"access"`). -/
theorem C4_type_confusion_rejected (s alg : String) (days m nowi nowv : Int)
    (uid : Value) :
    verify_access_token ⟨⟨s, alg⟩, m⟩ nowv
      (generate_refresh_token ⟨⟨s, alg⟩, days⟩ nowi uid none) = false := by
  have hgr : generate_refresh_token ⟨⟨s, alg⟩, days⟩ nowi uid none
      = encode_token ⟨s, alg⟩ nowi
          [("sub", uid), ("type", Value.str "refresh")] (some (days * 86400)) := rfl
  simp only [verify_access_token]
  rw [hgr, decode_token_encode_token]
  by_cases h : encodeExpire nowi (some (days * 86400)) ≤ nowv
  · rw [if_pos h]
  · rw [if_neg h, dictInsert_exp_base]
    rfl

/-- C5: every codec-level decode failure is caught at the exchange
boundary and converted into an absent result: whenever decoding the input
fails (malformed string, wrong signature or algorithm, expired token),
`generate_new_access_token` returns none.  The embedding of the handler is
a total function whose only failure channel is this Option, mirroring that
every `InvalidTokenError` is caught and no decode error escapes. -/
theorem C5_exchange_absorbs_decode_failure (rcfg : RefreshTokenCfg)
    (acfg : AccessTokenCfg) (now : Int) (t : TokenStr) (e : String)
    (h : decode_token rcfg.toJWTConfig now t = Except.error e) :
    generate_new_access_token rcfg now t acfg = none := by
  simp [generate_new_access_token, RefreshToken.get_user_id_from_token,
    verify_refresh_token, h, valueTruthy]

/-- C5 witness: exchange of a malformed token string returns absent. -/
theorem C5_witness :
    generate_new_access_token ⟨⟨"k", "HS256"⟩, 7⟩ 0 (TokenStr.malformed "junk")
      ⟨⟨"k", "HS256"⟩, 30⟩ = none :=
  C5_exchange_absorbs_decode_failure ⟨⟨"k", "HS256"⟩, 7⟩ ⟨⟨"k", "HS256"⟩, 30⟩ 0
    (TokenStr.malformed "junk") ("Invalid token: " ++ "DecodeError") rfl

/-- C6 counterexample: a claims mapping that already contains an `exp` key
does not survive the round trip: `encode_token` overwrites the caller's
`exp` value with the computed expiry, so the decoded mapping does not
contain the original claim value. -/
theorem C6_counterexample :
    decode_token ⟨"k", "HS256"⟩ 0
      (encode_token ⟨"k", "HS256"⟩ 0 [("exp", Value.int 0)] none) =
      Except.ok [("exp", Value.int 86400)] ∧
    dictGet [("exp", Value.int 86400)] "exp" ≠ some (Value.int 0) :=
  ⟨rfl, by decide⟩

/-- C6 (amended): for every claims mapping that does not already contain an
`exp` key, decoding the encoded token before its expiry yields exactly the
original claims extended with the computed `exp` claim: every original key
keeps its original value and the `exp` claim is present. -/
theorem C6_amended (cfg : JWTConfig) (claims : Claims) (d : Option Int)
    (now nowv : Int) (hexp : containsKey claims "exp" = false)
    (hfresh : nowv < encodeExpire now d) :
    decode_token cfg nowv (encode_token cfg now claims d) =
      Except.ok (claims ++ [("exp", Value.int (encodeExpire now d))]) ∧
    (∀ k v, dictGet claims k = some v →
      dictGet (claims ++ [("exp", Value.int (encodeExpire now d))]) k = some v) ∧
    dictGet (claims ++ [("exp", Value.int (encodeExpire now d))]) "exp" =
      some (Value.int (encodeExpire now d)) := by
  refine ⟨?_, ?_, ?_⟩
  · rw [decode_token_encode_token, if_neg (by omega),
      dictInsert_not_contains _ _ _ hexp]
  · intro k v hv
    rw [dictGet_append]
    simp [hv]
  · rw [dictGet_append, dictGet_none_of_not_contains _ _ hexp]
    rfl

/-- C6 witness: the amended round trip at a concrete claims mapping. -/
theorem C6_amended_witness :
    decode_token ⟨"k", "HS256"⟩ 0
      (encode_token ⟨"k", "HS256"⟩ 0 [("sub", Value.str "u")] none) =
      Except.ok ([("sub", Value.str "u")] ++
        [("exp", Value.int (encodeExpire 0 none))]) :=
  (C6_amended ⟨"k", "HS256"⟩ [("sub", Value.str "u")] none 0 0 (by decide)
    (by decide)).1

/-- C7 counterexample: encode with a supplied ttl of 0 does not set `exp`
to now + 0: the zero timedelta is falsy, so the 24-hour default applies
and the token's `exp` is now + 86400 instead. -/
theorem C7_counterexample :
    dictGet (tokenPayload (encode_token ⟨"k", "HS256"⟩ 0 [] (some 0))) "exp" =
      some (Value.int 86400) ∧
    dictGet (tokenPayload (encode_token ⟨"k", "HS256"⟩ 0 [] (some 0))) "exp" ≠
      some (Value.int (0 + 0)) :=
  ⟨rfl, by decide⟩

/-- C7 (amended): encode with no ttl argument sets the token's `exp` claim
to now + 24 hours; encode with a NONZERO supplied ttl sets `exp` to
now + ttl; encode with a supplied ttl of 0 behaves like the unspecified
case and sets `exp` to now + 24 hours. -/
theorem C7_amended (cfg : JWTConfig) (now : Int) (claims : Claims) :
    dictGet (tokenPayload (encode_token cfg now claims none)) "exp" =
      some (Value.int (now + 86400)) ∧
    (∀ d : Int, d ≠ 0 →
      dictGet (tokenPayload (encode_token cfg now claims (some d))) "exp" =
        some (Value.int (now + d))) ∧
    dictGet (tokenPayload (encode_token cfg now claims (some 0))) "exp" =
      some (Value.int (now + 86400)) := by
  refine ⟨?_, ?_, ?_⟩
  · rw [tokenPayload_encode, dictGet_dictInsert_self, encodeExpire_none]
  · intro d hd
    rw [tokenPayload_encode, dictGet_dictInsert_self, encodeExpire_some_ne _ _ hd]
  · rw [tokenPayload_encode, dictGet_dictInsert_self, encodeExpire_some_zero]

/-- C7 witness: the amended theorem applied at a concrete nonzero ttl. -/
theorem C7_amended_witness :
    dictGet (tokenPayload (encode_token ⟨"k", "HS256"⟩ 0 [] (some 5))) "exp" =
      some (Value.int (0 + 5)) :=
  (C7_amended ⟨"k", "HS256"⟩ 0 []).2.1 5 (by decide)

/-- C8: encode is side-effect free on its input: the caller's claims
mapping is unchanged after the call — the function updates only its local
copy, whose contents go into the produced token — and the produced token
is exactly that of `encode_token`. -/
theorem C8_encode_no_side_effect (cfg : JWTConfig) (now : Int)
    (payload : Claims) (expires_delta : Option Int) :
    (encode_token_eff cfg now payload expires_delta).2 = payload ∧
    (encode_token_eff cfg now payload expires_delta).1 =
      encode_token cfg now payload expires_delta :=
  ⟨rfl, rfl⟩

/-- C10: a refresh token issued for the empty-string user_id can never be
exchanged: `generate_new_access_token` returns absent at every exchange
time, even though (second conjunct) the token itself decodes, is unexpired
and verifies as a refresh token before its expiry — the guard
`if user_id and ...` treats the empty-string subject as falsy. -/
theorem C10_exchange_empty_subject (s alg : String) (days m nowi nowx : Int) :
    generate_new_access_token ⟨⟨s, alg⟩, days⟩ nowx
      (generate_refresh_token ⟨⟨s, alg⟩, days⟩ nowi (Value.str "") none)
      ⟨⟨s, alg⟩, m⟩ = none ∧
    (0 < days → nowx < nowi + days * 86400 →
      verify_refresh_token ⟨⟨s, alg⟩, days⟩ nowx
        (generate_refresh_token ⟨⟨s, alg⟩, days⟩ nowi (Value.str "") none) = true) := by
  have hgr : generate_refresh_token ⟨⟨s, alg⟩, days⟩ nowi (Value.str "") none
      = encode_token ⟨s, alg⟩ nowi
          [("sub", Value.str ""), ("type", Value.str "refresh")]
          (some (days * 86400)) := rfl
  constructor
  · simp only [generate_new_access_token, RefreshToken.get_user_id_from_token,
      verify_refresh_token]
    rw [hgr, decode_token_encode_token]
    by_cases h : encodeExpire nowi (some (days * 86400)) ≤ nowx
    · rw [if_pos h]
      rfl
    · rw [if_neg h, dictInsert_exp_base]
      rfl
  · intro hdays hfresh
    have he : encodeExpire nowi (some (days * 86400)) = nowi + days * 86400 :=
      encodeExpire_some_ne _ _ (by omega)
    simp only [verify_refresh_token]
    rw [hgr, decode_token_encode_token, he, if_neg (by omega), dictInsert_exp_base]
    rfl

/-- C9: caller-supplied extra claims win on key collision: when issuing a
token with additional claims that bind `sub` or `type`, any successfully
decoded payload carries the extra-claims value at that key — not the
handler's base subject or type tag — on both the access and the refresh
issuance paths (the additional claims have distinct keys, as a Python
dict). -/
theorem C9_extra_claims_override (cfg : JWTConfig) (m days now nowv : Int)
    (uid : Value) (e : Claims) (k : String) (v : Value)
    (hk : k = "sub" ∨ k = "type")
    (hnd : (e.map Prod.fst).Nodup) (hv : dictGet e k = some v) :
    (∀ p, decode_token cfg nowv (generate_access_token ⟨cfg, m⟩ now uid (some e)) =
        Except.ok p → dictGet p k = some v) ∧
    (∀ p, decode_token cfg nowv (generate_refresh_token ⟨cfg, days⟩ now uid (some e)) =
        Except.ok p → dictGet p k = some v) := by
  have hkex : k ≠ "exp" := by
    rcases hk with h | h <;> subst h <;> decide
  have hcont : containsKey e k = true := containsKey_of_dictGet _ _ _ hv
  constructor
  · intro p hp
    rw [generate_access_token_update,
      show ((⟨cfg, m⟩ : AccessTokenCfg).toJWTConfig) = cfg from rfl,
      decode_token_encode_token] at hp
    split at hp
    · simp at hp
    · rw [← Except.ok.inj hp,
        dictGet_dictInsert_ne _ _ _ _ (Ne.symm hkex),
        dictGet_dictUpdate_contains _ _ _ hnd hcont]
      exact hv
  · intro p hp
    rw [generate_refresh_token_update,
      show ((⟨cfg, days⟩ : RefreshTokenCfg).toJWTConfig) = cfg from rfl,
      decode_token_encode_token] at hp
    split at hp
    · simp at hp
    · rw [← Except.ok.inj hp,
        dictGet_dictInsert_ne _ _ _ _ (Ne.symm hkex),
        dictGet_dictUpdate_contains _ _ _ hnd hcont]
      exact hv

/-- C9 witness: issuing an access token for "u" with extra claim
`sub = "evil"` yields a token whose decoded subject is "evil". -/
theorem C9_witness :
    dictGet [("sub", Value.str "evil"), ("type", Value.str "access"),
      ("exp", Value.int 1800)] "sub" = some (Value.str "evil") :=
  (C9_extra_claims_override ⟨"k", "HS256"⟩ 30 7 0 0 (Value.str "u")
    [("sub", Value.str "evil")] "sub" (Value.str "evil") (Or.inl rfl)
    (by decide) rfl).1 _ rfl

/-- Tokens producible through the access handler's public issue operation:
some configuration, issuance time, subject and additional claims produce
the token. -/
def issuedByAccess (t : TokenStr) : Prop :=
  ∃ (c : JWTConfig) (m : Int) (now : Int) (uid : Value) (ac : Option Claims),
    t = generate_access_token ⟨c, m⟩ now uid ac

/-- Tokens producible through the refresh handler's public issue
operation. -/
def issuedByRefresh (t : TokenStr) : Prop :=
  ∃ (c : JWTConfig) (days : Int) (now : Int) (uid : Value) (ac : Option Claims),
    t = generate_refresh_token ⟨c, days⟩ now uid ac

/-- C2: issuance invariant over the public issuance interface: every token
producible by either handler's issue operation that decodes successfully
(hence is well signed and unexpired) and carries `type = "access"` is
producible by the access handler's issue operation, and likewise every
such token carrying `type = "refresh"` is producible by the refresh
handler's issue operation.  (A refresh-issued token can only carry
`type = "access"` when the caller's extra claims overrode the tag, and the
identical token payload then also arises from access issuance with the
same extra claims at a suitable issuance time.) -/
theorem C2_issuance_invariant (t : TokenStr)
    (hIss : issuedByAccess t ∨ issuedByRefresh t)
    (cfg : JWTConfig) (now : Int) (p : Claims)
    (hdec : decode_token cfg now t = Except.ok p) :
    (dictGet p "type" = some (Value.str "access") → issuedByAccess t) ∧
    (dictGet p "type" = some (Value.str "refresh") → issuedByRefresh t) := by
  constructor
  · intro hty
    rcases hIss with h | h
    · exact h
    · obtain ⟨c, days, nowr, uid, ac, rfl⟩ := h
      obtain ⟨e, ht⟩ : ∃ e : Claims,
          generate_refresh_token ⟨c, days⟩ nowr uid ac
          = encode_token c nowr
              (dictUpdate [("sub", uid), ("type", Value.str "refresh")] e)
              (some (days * 86400)) := by
        cases ac with
        | none => exact ⟨[], rfl⟩
        | some e =>
          refine ⟨e, ?_⟩
          rw [generate_refresh_token_update]
      rw [ht, encode_token_eq] at hdec
      have hp := decode_token_ok_payload _ _ _ _ _ _ hdec
      rw [hp, dictGet_dictInsert_ne _ _ _ _
        (by decide : ("exp" : String) ≠ "type")] at hty
      have heq := dictUpdate_type_override uid e (Value.str "refresh")
        (Value.str "access") hty (by decide)
      refine ⟨c, 1440, encodeExpire nowr (some (days * 86400)) - 86400, uid,
        some e, ?_⟩
      rw [ht, generate_access_token_update, encode_token_eq, encode_token_eq,
        ← heq]
      have hx : encodeExpire (encodeExpire nowr (some (days * 86400)) - 86400)
          (some (((⟨c, 1440⟩ : AccessTokenCfg).expiration_minutes : Int) * 60))
          = encodeExpire nowr (some (days * 86400)) := by
        rw [show (((⟨c, 1440⟩ : AccessTokenCfg).expiration_minutes : Int) * 60)
            = 86400 by norm_num]
        rw [encodeExpire_some_ne _ _ (by norm_num)]
        omega
      rw [hx]
  · intro hty
    rcases hIss with h | h
    · obtain ⟨c, m, nowa, uid, ac, rfl⟩ := h
      obtain ⟨e, ht⟩ : ∃ e : Claims,
          generate_access_token ⟨c, m⟩ nowa uid ac
          = encode_token c nowa
              (dictUpdate [("sub", uid), ("type", Value.str "access")] e)
              (some (m * 60)) := by
        cases ac with
        | none => exact ⟨[], rfl⟩
        | some e =>
          refine ⟨e, ?_⟩
          rw [generate_access_token_update]
      rw [ht, encode_token_eq] at hdec
      have hp := decode_token_ok_payload _ _ _ _ _ _ hdec
      rw [hp, dictGet_dictInsert_ne _ _ _ _
        (by decide : ("exp" : String) ≠ "type")] at hty
      have heq := dictUpdate_type_override uid e (Value.str "access")
        (Value.str "refresh") hty (by decide)
      refine ⟨c, 1, encodeExpire nowa (some (m * 60)) - 86400, uid,
        some e, ?_⟩
      rw [ht, generate_refresh_token_update, encode_token_eq, encode_token_eq,
        ← heq]
      have hx : encodeExpire (encodeExpire nowa (some (m * 60)) - 86400)
          (some (((⟨c, 1⟩ : RefreshTokenCfg).expiration_days : Int) * 86400))
          = encodeExpire nowa (some (m * 60)) := by
        rw [show (((⟨c, 1⟩ : RefreshTokenCfg).expiration_days : Int) * 86400)
            = 86400 by norm_num]
        rw [encodeExpire_some_ne _ _ (by norm_num)]
        omega
      rw [hx]
    · exact h

/-- C2 witness: a concrete access-issued token, decoded fresh with type
"access", is access-issuable. -/
theorem C2_witness :
    issuedByAccess (generate_access_token ⟨⟨"k", "HS256"⟩, 30⟩ 0
      (Value.str "u") none) :=
  (C2_issuance_invariant _
    (Or.inl ⟨⟨"k", "HS256"⟩, 30, 0, Value.str "u", none, rfl⟩)
    ⟨"k", "HS256"⟩ 0
    [("sub", Value.str "u"), ("type", Value.str "access"),
      ("exp", Value.int 1800)] rfl).1 rfl

/-- C10 witness: the empty-subject refresh token at a concrete unexpired
time: exchange absent while the token verifies as refresh. -/
theorem C10_witness :
    generate_new_access_token ⟨⟨"k", "HS256"⟩, 7⟩ 0
      (generate_refresh_token ⟨⟨"k", "HS256"⟩, 7⟩ 0 (Value.str "") none)
      ⟨⟨"k", "HS256"⟩, 30⟩ = none ∧
    verify_refresh_token ⟨⟨"k", "HS256"⟩, 7⟩ 0
      (generate_refresh_token ⟨⟨"k", "HS256"⟩, 7⟩ 0 (Value.str "") none) = true :=
  ⟨(C10_exchange_empty_subject "k" "HS256" 7 30 0 0).1,
   (C10_exchange_empty_subject "k" "HS256" 7 30 0 0).2 (by decide) (by decide)⟩

end Nebula
